import Mathlib

/-!
# WebSocket echo server (`beast_server.cpp`): embedding and verification

The program is a callback-driven echo server written against Boost.Asio /
Boost.Beast.  Each completion handler of the source (`Session::on_accept`,
`Session::on_read`, `Session::on_write`, `Listener::on_accept`) is embedded as
a function from the object's state to its new state together with the list of
effects the handler performs, in program order: lines written to `std::cout`
and `std::cerr` and asynchronous operations handed to the library.

The library is the environment.  Its contribution is made explicit in
`Session.complete`: an operation that was issued and is still outstanding
completes, the library updates what it owns (the dynamic buffer receives the
message, `got_text()` reports its type) and calls the handler that was bound
to the operation.  A handler is never called for an operation that is not
outstanding.
-/

namespace BeastServer

/-! ## Values exchanged with the library -/

/-- One octet of a message payload. -/
abbrev Byte := Fin 256

/-- What the program observes of a `beast::error_code`: its integer value, the
name of its category and the text returned by `message()`. -/
structure error_code where
  value : Int
  category : String
  message : String
deriving DecidableEq, Repr

/-- The contextual conversion `if (ec)`: an error code is set when its value is
not zero. -/
def error_code.failed (ec : error_code) : Bool :=
  ec.value != 0

/-- The category name of Beast's WebSocket error codes. -/
def websocket_category : String := "boost.beast.websocket"

/-- The enumerator `websocket::error::closed`, the first of the enumeration. -/
def websocket_error_closed : Int := 1

/-- The comparison `ec == websocket::error::closed`: same value, same category. -/
def error_code.is_closed (ec : error_code) : Bool :=
  ec.value == websocket_error_closed && ec.category == websocket_category

/-- A default-constructed error code: no error. -/
def error_code.success : error_code :=
  { value := 0, category := "system", message := "Success" }

/-- An accepted transport socket, identified by its descriptor. -/
abbrev Socket := Nat

/-- The kinds of asynchronous operation a session hands to the library. -/
inductive OpKind where
  | handshake
  | read
  | write
deriving DecidableEq, Repr

/-- Effects performed by a handler, in program order. -/
inductive Effect where
  /-- A line written to `std::cout`. -/
  | cout (line : String)
  /-- A line written to `std::cerr`. -/
  | cerr (line : String)
  /-- The call `ws_.async_accept(...)` of `Session::run`. -/
  | ws_async_accept
  /-- The call `ws_.async_read(buffer_, ...)` of `Session::do_read`. -/
  | ws_async_read
  /-- The call `ws_.async_write(buffer_.data(), ...)` of `Session::on_read`, with
  the message type selected on the stream and the bytes handed over. -/
  | ws_async_write (is_text : Bool) (data : List Byte)
  /-- The call `acceptor_.async_accept(...)` of `Listener::do_accept`. -/
  | acceptor_async_accept
deriving DecidableEq, Repr

/-- The effect issues a read on the WebSocket stream. -/
def Effect.is_read : Effect → Bool
  | .ws_async_read => true
  | _ => false

/-- The effect issues a write on the WebSocket stream. -/
def Effect.is_write : Effect → Bool
  | .ws_async_write _ _ => true
  | _ => false

/-- The effect writes a line on the error stream. -/
def Effect.is_cerr : Effect → Bool
  | .cerr _ => true
  | _ => false

/-- The effect writes a line on the standard output. -/
def Effect.is_cout : Effect → Bool
  | .cout _ => true
  | _ => false

/-- The effect hands an asynchronous operation to the library. -/
def Effect.is_async : Effect → Bool
  | .ws_async_accept => true
  | .ws_async_read => true
  | .ws_async_write _ _ => true
  | .acceptor_async_accept => true
  | _ => false

/-- The messages handed to `async_write`, in the order the writes were issued. -/
def writes_of : List Effect → List (Bool × List Byte)
  | [] => []
  | .ws_async_write t d :: es => (t, d) :: writes_of es
  | _ :: es => writes_of es

/-- The text `beast::make_printable` streams for a buffer: its bytes as
characters. -/
def make_printable (data : List Byte) : String :=
  String.mk (data.map fun b => Char.ofNat b.val)

/-! ## `class Session` -/

/-- The state of a `Session`: the members `ws_` and `buffer_`, and the
operations of this session the library has not completed yet. -/
structure Session where
  /-- The socket `ws_` was constructed from. -/
  socket : Socket
  /-- The readable bytes of `buffer_`. -/
  buffer_ : List Byte
  /-- What `ws_.got_text()` returns: the type of the last message read. -/
  got_text : Bool
  /-- What `ws_.text()` returns: the type of outgoing messages. -/
  text : Bool
  /-- Operations issued on `ws_` and still outstanding, oldest first. -/
  pending : List OpKind
deriving DecidableEq, Repr

/-- The constructor `Session(tcp::socket socket)`: an empty buffer, a stream in
its default state (text messages), nothing outstanding. -/
def Session.new (socket : Socket) : Session :=
  { socket := socket, buffer_ := [], got_text := true, text := true, pending := [] }

/-- The call `buffer_.size()`. -/
def Session.buffer_size (s : Session) : Nat :=
  s.buffer_.length

/-- The call `buffer_.consume(n)`: removes `n` bytes from the front of the
readable bytes, all of them when `n` is at least the size. -/
def Session.buffer_consume (s : Session) (n : Nat) : Session :=
  { s with buffer_ := s.buffer_.drop n }

/-- The method `Session::run`: starts the WebSocket handshake. -/
def Session.run (s : Session) : Session × List Effect :=
  ({ s with pending := s.pending ++ [OpKind.handshake] }, [Effect.ws_async_accept])

/-- The method `Session::do_read`: issues one read into `buffer_`. -/
def Session.do_read (s : Session) : Session × List Effect :=
  ({ s with pending := s.pending ++ [OpKind.read] }, [Effect.ws_async_read])

/-- The method `Session::on_accept`, the completion handler of the handshake. -/
def Session.on_accept (s : Session) (ec : error_code) : Session × List Effect :=
  if ec.failed then
    (s, [Effect.cerr ("Accept error: " ++ ec.message)])
  else
    let r := s.do_read
    (r.1, Effect.cout "WebSocket connection accepted" :: r.2)

/-- The method `Session::on_read`, the completion handler of a read.
The argument `bytes_transferred` is ignored, as in the source. -/
def Session.on_read (s : Session) (ec : error_code) (_bytes_transferred : Nat) :
    Session × List Effect :=
  if ec.is_closed then
    (s, [Effect.cout "Connection closed by client"])
  else if ec.failed then
    (s, [Effect.cerr ("Read error: " ++ ec.message)])
  else
    let s1 : Session := { s with text := s.got_text }
    ({ s1 with pending := s1.pending ++ [OpKind.write] },
      [Effect.cout ("Received: " ++ make_printable s.buffer_),
       Effect.ws_async_write s1.text s1.buffer_])

/-- The method `Session::on_write`, the completion handler of a write.
The argument `bytes_transferred` is ignored, as in the source. -/
def Session.on_write (s : Session) (ec : error_code) (_bytes_transferred : Nat) :
    Session × List Effect :=
  if ec.failed then
    (s, [Effect.cerr ("Write error: " ++ ec.message)])
  else
    (s.buffer_consume s.buffer_size).do_read

/-! ## The library side of a session -/

/-- A completion the library delivers to a session. -/
inductive Completion where
  /-- The handshake finished with `ec`. -/
  | handshake (ec : error_code)
  /-- A read finished with `ec`; the library appended `data` to the dynamic
  buffer and the message it belongs to has type `is_text`. -/
  | read (ec : error_code) (is_text : Bool) (data : List Byte)
  /-- A write finished with `ec`. -/
  | write (ec : error_code) (bytes_transferred : Nat)
deriving DecidableEq, Repr

/-- The kind of operation a completion belongs to. -/
def Completion.kind : Completion → OpKind
  | .handshake _ => OpKind.handshake
  | .read _ _ _ => OpKind.read
  | .write _ _ => OpKind.write

/-- The error code a completion carries. -/
def Completion.ec : Completion → error_code
  | .handshake ec => ec
  | .read ec _ _ => ec
  | .write ec _ => ec

/-- The library completes an outstanding operation and calls the handler that
was bound to it.  `none` when no operation of that kind is outstanding: the
library calls no handler then.  A read appends the received bytes to `buffer_`
and records the message type before `on_read` runs. -/
def Session.complete (s : Session) (c : Completion) : Option (Session × List Effect) :=
  if c.kind ∈ s.pending then
    let s0 : Session := { s with pending := s.pending.erase c.kind }
    match c with
    | .handshake ec => some (s0.on_accept ec)
    | .read ec t data =>
        some (Session.on_read { s0 with buffer_ := s0.buffer_ ++ data, got_text := t }
          ec data.length)
    | .write ec n => some (s0.on_write ec n)
  else
    none

/-- The session under a sequence of completions: each is delivered if its
operation is outstanding and has no effect otherwise.  Returns the final state
and all effects in order. -/
def Session.exec (s : Session) : List Completion → Session × List Effect
  | [] => (s, [])
  | c :: cs =>
    match s.complete c with
    | some (s1, e1) =>
      let r := Session.exec s1 cs
      (r.1, e1 ++ r.2)
    | none => Session.exec s cs

/-- A session right after `std::make_shared<Session>(std::move(socket))->run()`. -/
def Session.started (socket : Socket) : Session :=
  (Session.run (Session.new socket)).1

/-- The completions of a connection on which the handshake succeeds and the
messages `ms` are read one after the other, every write succeeding. -/
def echo_events (ms : List (Bool × List Byte)) : List Completion :=
  Completion.handshake error_code.success ::
    ms.flatMap fun m =>
      [Completion.read error_code.success m.1 m.2,
       Completion.write error_code.success m.2.length]

/-! ## `class Listener` -/

/-- A `tcp::endpoint`: address and port. -/
structure Endpoint where
  address : String
  port : Nat
deriving DecidableEq, Repr

/-- The error codes the operating system returns to the four acceptor calls of
the `Listener` constructor. -/
structure StartupResults where
  open_ec : error_code
  set_option_ec : error_code
  bind_ec : error_code
  listen_ec : error_code
deriving DecidableEq, Repr

/-- The state of a `Listener`: what has been done to `acceptor_`, and how many
`async_accept` operations are outstanding on it. -/
structure Listener where
  /-- The call `acceptor_.open` succeeded. -/
  is_open : Bool
  /-- The option `reuse_address(true)` is set. -/
  reuse_address : Bool
  /-- The endpoint `acceptor_.bind` succeeded on. -/
  bound : Option Endpoint
  /-- The call `acceptor_.listen` succeeded. -/
  listening : Bool
  /-- Outstanding `acceptor_.async_accept` operations. -/
  pending : Nat
deriving DecidableEq, Repr

/-- The constructor `Listener(ioc, endpoint)`.  Every failure is logged and
followed by a plain `return`: the constructor completes and leaves a listener
whose acceptor is not listening. -/
def Listener.new (os : StartupResults) (endpoint : Endpoint) : Listener × List Effect :=
  let l0 : Listener :=
    { is_open := false, reuse_address := false, bound := none, listening := false,
      pending := 0 }
  if os.open_ec.failed then
    (l0, [Effect.cerr ("Open error: " ++ os.open_ec.message)])
  else
    let l1 : Listener := { l0 with is_open := true }
    if os.set_option_ec.failed then
      (l1, [Effect.cerr ("Set option error: " ++ os.set_option_ec.message)])
    else
      let l2 : Listener := { l1 with reuse_address := true }
      if os.bind_ec.failed then
        (l2, [Effect.cerr ("Bind error: " ++ os.bind_ec.message)])
      else
        let l3 : Listener := { l2 with bound := some endpoint }
        if os.listen_ec.failed then
          (l3, [Effect.cerr ("Listen error: " ++ os.listen_ec.message)])
        else
          ({ l3 with listening := true },
            [Effect.cout ("WebSocket server listening on " ++ endpoint.address ++ ":" ++
              toString endpoint.port)])

/-- The method `Listener::do_accept`: issues one accept. -/
def Listener.do_accept (l : Listener) : Listener × List Effect :=
  ({ l with pending := l.pending + 1 }, [Effect.acceptor_async_accept])

/-- The method `Listener::run`. -/
def Listener.run (l : Listener) : Listener × List Effect :=
  l.do_accept

/-- What a call of `Listener::on_accept` leaves behind: the listener, the
session it created and started (if any), and its effects in order. -/
structure Accepted where
  listener : Listener
  session : Option Session
  effects : List Effect
deriving DecidableEq, Repr

/-- The method `Listener::on_accept`, the completion handler of an accept. -/
def Listener.on_accept (l : Listener) (ec : error_code) (socket : Socket) : Accepted :=
  if ec.failed then
    let r := l.do_accept
    { listener := r.1, session := none,
      effects := Effect.cerr ("Accept error: " ++ ec.message) :: r.2 }
  else
    let s := Session.run (Session.new socket)
    let r := l.do_accept
    { listener := r.1, session := some s.1, effects := s.2 ++ r.2 }

/-- The library completes an outstanding accept and calls `Listener::on_accept`;
`none` when no accept is outstanding. -/
def Listener.complete (l : Listener) (ec : error_code) (socket : Socket) : Option Accepted :=
  if l.pending = 0 then none
  else some (Listener.on_accept { l with pending := l.pending - 1 } ec socket)

/-- The listener under a sequence of accept completions.  Returns the final
listener, the sessions started (oldest first) and all effects in order. -/
def Listener.exec (l : Listener) :
    List (error_code × Socket) → Listener × List Session × List Effect
  | [] => (l, [], [])
  | (ec, socket) :: cs =>
    match l.complete ec socket with
    | some a =>
      let r := Listener.exec a.listener cs
      (r.1, a.session.toList ++ r.2.1, a.effects ++ r.2.2)
    | none => Listener.exec l cs

/-! ## `main` -/

/-- The value of `EXIT_SUCCESS`. -/
def EXIT_SUCCESS : Nat := 0

/-- The value of `EXIT_FAILURE`. -/
def EXIT_FAILURE : Nat := 1

/-- The C predicate `isspace` in the "C" locale: space, and the control
characters tab, line feed, vertical tab, form feed and carriage return. -/
def isspace (c : Char) : Bool :=
  c.toNat == 32 || (9 ≤ c.toNat && c.toNat ≤ 13)

/-- The digit loop of `atoi`: consumes decimal digits, stops at the first other
character. -/
def atoi_digits (acc : Int) : List Char → Int
  | [] => acc
  | c :: cs =>
    if c.isDigit then atoi_digits (acc * 10 + ((c.toNat : Int) - 48)) cs else acc

/-- The C function `atoi` on the characters of its argument: leading white
space is skipped, one optional sign is read, then decimal digits up to the
first other character; `0` when there is no digit.  The value is the exact
integer; C defines `atoi` only when that integer fits an `int`. -/
def atoi (s : List Char) : Int :=
  match s.dropWhile isspace with
  | [] => 0
  | c :: cs =>
    if c = '-' then - atoi_digits 0 cs
    else if c = '+' then atoi_digits 0 cs
    else atoi_digits 0 (c :: cs)

/-- The conversion `static_cast<unsigned short>(i)`: reduction modulo `2^16`. -/
def to_unsigned_short (i : Int) : Nat :=
  (i % 65536).toNat

/-- The port `main` listens on: `9001`, or `atoi(argv[1])` converted to
`unsigned short` when `argc >= 2`. -/
def main_port (argv : List String) : Nat :=
  if 2 ≤ argv.length then to_unsigned_short (atoi (argv.getD 1 "").data) else 9001

/-- The endpoint `main` passes to the `Listener`: host `"0.0.0.0"` and
`main_port`. -/
def main_endpoint (argv : List String) : Endpoint :=
  { address := "0.0.0.0", port := main_port argv }

/-- The lines `main` prints before the `try` block. -/
def banner : List Effect :=
  [Effect.cout "=== WebSocket Echo Server (Boost.Beast) ===",
   Effect.cout "Quick Start Implementation",
   Effect.cout "==========================================="]

/-- What `main` meets at run time: an exception thrown while the `io_context`
is set up (its `what()`), the results of the acceptor calls, and the accept
completions the library delivers while `ioc.run()` is executing. -/
structure Environment where
  ioc_exception : Option String
  startup : StartupResults
  accepts : List (error_code × Socket)
deriving DecidableEq, Repr

/-- Where `main` stands once the completions of the environment are consumed:
it has returned an exit code, or it is still inside `ioc.run()` because
operations are outstanding. -/
inductive Outcome where
  | returned (code : Nat)
  | serving (listener : Listener) (sessions : List Session)
deriving DecidableEq, Repr

/-- The function `main`.  An exception inside the `try` block is caught,
reported and turned into `EXIT_FAILURE`.  Otherwise the listener is
constructed and `run()` is called on it, whatever the constructor met, and
`ioc.run()` serves completions; it returns, and `main` returns `EXIT_SUCCESS`,
only when no operation is outstanding.  Sessions are reported in the state in
which the listener started them. -/
def main (argv : List String) (env : Environment) : Outcome × List Effect :=
  match env.ioc_exception with
  | some what => (Outcome.returned EXIT_FAILURE, banner ++ [Effect.cerr ("Error: " ++ what)])
  | none =>
    let c := Listener.new env.startup (main_endpoint argv)
    let r := c.1.run
    let x := Listener.exec r.1 env.accepts
    let work := x.1.pending + (x.2.1.map fun s => s.pending.length).sum
    (if work = 0 then Outcome.returned EXIT_SUCCESS else Outcome.serving x.1 x.2.1,
      banner ++ c.2 ++ r.2 ++ x.2.2)

/-! ## Predicates used by the statements -/

/-- The completions after which the handler returns without issuing anything:
a failed handshake, a read that reports the peer's close or any other error, a
failed write. -/
def Completion.terminates : Completion → Bool
  | .handshake ec => ec.failed
  | .read ec _ _ => ec.is_closed || ec.failed
  | .write ec _ => ec.failed

/-- The session invariant: at most one operation is outstanding, and the
buffer is empty while the handshake or a read is outstanding. -/
def Session.Inv (s : Session) : Prop :=
  s.pending.length ≤ 1 ∧
    (OpKind.handshake ∈ s.pending ∨ OpKind.read ∈ s.pending → s.buffer_ = [])

instance (s : Session) : Decidable s.Inv := by
  unfold Session.Inv
  infer_instance

/-! ## Lemmas on sessions -/

theorem error_code.not_closed_of_not_failed (ec : error_code) (h : ec.failed = false) :
    ec.is_closed = false := by
  simp only [error_code.failed, bne_eq_false_iff_eq, beq_iff_eq] at h
  simp [error_code.is_closed, h, websocket_error_closed]

theorem pending_eq_singleton (s : Session) (k : OpKind) (hlen : s.pending.length ≤ 1)
    (hk : k ∈ s.pending) : s.pending = [k] := by
  match hp : s.pending with
  | [] => simp [hp] at hk
  | [a] =>
    rw [hp] at hk
    simp only [List.mem_singleton] at hk
    rw [hk]
  | _ :: _ :: _ => simp [hp] at hlen

theorem complete_eq_none_of_pending_nil (s : Session) (h : s.pending = []) (c : Completion) :
    s.complete c = none := by
  simp [Session.complete, h]

theorem exec_of_pending_nil (s : Session) (h : s.pending = []) (cs : List Completion) :
    s.exec cs = (s, []) := by
  induction cs with
  | nil => rfl
  | cons c cs ih => simp [Session.exec, complete_eq_none_of_pending_nil s h c, ih]

/-- With one operation outstanding, its completion runs the bound handler on
the session with nothing outstanding. -/
theorem complete_of_singleton (s : Session) (c : Completion) (h : s.pending = [c.kind]) :
    s.complete c = some
      (match c with
       | .handshake ec => Session.on_accept { s with pending := [] } ec
       | .read ec t data =>
           Session.on_read { s with pending := [], buffer_ := s.buffer_ ++ data, got_text := t }
             ec data.length
       | .write ec n => Session.on_write { s with pending := [] } ec n) := by
  cases c <;> simp [Session.complete, h, Completion.kind]

theorem inv_started (socket : Socket) : (Session.started socket).Inv := by
  simp [Session.Inv, Session.started, Session.run, Session.new]

theorem inv_complete (s : Session) (c : Completion) (s1 : Session) (e : List Effect)
    (hinv : s.Inv) (hc : s.complete c = some (s1, e)) : s1.Inv := by
  have hmem : c.kind ∈ s.pending := by
    by_contra hn
    simp [Session.complete, hn] at hc
  have hp := pending_eq_singleton s c.kind hinv.1 hmem
  rw [complete_of_singleton s c hp] at hc
  have hbuf := hinv.2
  rw [hp] at hbuf
  cases c with
  | handshake ec =>
    simp only [Completion.kind, List.mem_singleton, true_or, forall_const] at hbuf
    simp only [Session.on_accept, Session.do_read, Option.some.injEq] at hc
    split at hc <;> cases hc <;> simp [Session.Inv, hbuf]
  | read ec t data =>
    simp only [Session.on_read, Option.some.injEq] at hc
    split at hc
    · cases hc; simp [Session.Inv]
    · split at hc <;> cases hc <;> simp [Session.Inv]
  | write ec n =>
    simp only [Session.on_write, Session.do_read, Session.buffer_consume, Session.buffer_size,
      Option.some.injEq] at hc
    split at hc <;> cases hc <;> simp [Session.Inv]

theorem inv_exec (cs : List Completion) (s : Session) (hinv : s.Inv) : (s.exec cs).1.Inv := by
  induction cs generalizing s with
  | nil => simpa [Session.exec] using hinv
  | cons c cs ih =>
    simp only [Session.exec]
    cases hc : s.complete c with
    | none => simpa using ih s hinv
    | some r =>
      obtain ⟨s1, e⟩ := r
      simpa using ih s1 (inv_complete s c s1 e hinv hc)

theorem writes_of_append (a b : List Effect) : writes_of (a ++ b) = writes_of a ++ writes_of b := by
  induction a with
  | nil => rfl
  | cons x a ih => cases x <;> simp [writes_of, ih]

/-- One round of the echo loop from a state with a read outstanding and an empty
buffer: the effects of the successful read and of the successful write. -/
theorem exec_round (s : Session) (t : Bool) (d : List Byte) (n : Nat) (cs : List Completion)
    (hp : s.pending = [OpKind.read]) (hb : s.buffer_ = []) :
    ∃ s2 : Session, s2.pending = [OpKind.read] ∧ s2.buffer_ = [] ∧
      s.exec (Completion.read error_code.success t d ::
        Completion.write error_code.success n :: cs) =
        ((s2.exec cs).1,
          [Effect.cout ("Received: " ++ make_printable d), Effect.ws_async_write t d,
            Effect.ws_async_read] ++ (s2.exec cs).2) := by
  refine ⟨{ s with pending := [OpKind.read], buffer_ := [], got_text := t, text := t },
    rfl, rfl, ?_⟩
  have h1 := complete_of_singleton s (Completion.read error_code.success t d) hp
  simp only [Session.on_read, error_code.is_closed, error_code.failed, error_code.success,
    websocket_error_closed, hb, List.nil_append] at h1
  simp only [Session.exec, error_code.success, h1]
  simp [Session.exec, Session.complete, Completion.kind, Session.on_write, Session.do_read,
    Session.buffer_consume, Session.buffer_size, error_code.failed]

theorem exec_rounds (ms : List (Bool × List Byte)) (s : Session)
    (hp : s.pending = [OpKind.read]) (hb : s.buffer_ = []) :
    writes_of (s.exec (ms.flatMap fun m =>
      [Completion.read error_code.success m.1 m.2,
       Completion.write error_code.success m.2.length])).2 = ms := by
  induction ms generalizing s with
  | nil => rfl
  | cons m ms ih =>
    obtain ⟨s2, hp2, hb2, h⟩ := exec_round s m.1 m.2 m.2.length
      (ms.flatMap fun m =>
        [Completion.read error_code.success m.1 m.2,
         Completion.write error_code.success m.2.length]) hp hb
    simp only [List.flatMap_cons, List.cons_append, List.nil_append, h]
    simp [writes_of, ih s2 hp2 hb2]

/-- A successful read delivered on an empty buffer: the handler issues one
operation, the write of the message read. -/
theorem read_on_empty_buffer (s : Session) (ec : error_code) (t : Bool) (b : List Byte)
    (hok : ec.failed = false) (hissued : OpKind.read ∈ s.pending) (hempty : s.buffer_ = []) :
    ∃ s1 e, s.complete (Completion.read ec t b) = some (s1, e) ∧
      e.filter Effect.is_async = [Effect.ws_async_write t b] ∧
      writes_of e = [(t, b)] := by
  have hnc := error_code.not_closed_of_not_failed ec hok
  simp only [Session.complete, Completion.kind, hissued, Session.on_read, hok, hnc, hempty,
    if_true, List.nil_append]
  exact ⟨_, _, rfl, by simp [Effect.is_async], by simp [writes_of]⟩

/-! ## The claims on sessions -/

/-- C1: a successful read that was issued on an empty buffer and delivers a
message of type `t` with bytes `b` (possibly none) makes `on_read` issue exactly
one asynchronous operation, a write carrying the bytes `b` and the type `t`. -/
theorem C1_echo_is_identity (s : Session) (ec : error_code) (t : Bool) (b : List Byte)
    (hok : ec.failed = false) (hissued : OpKind.read ∈ s.pending) (hempty : s.buffer_ = []) :
    ∃ s1 e, s.complete (Completion.read ec t b) = some (s1, e) ∧
      e.filter Effect.is_async = [Effect.ws_async_write t b] ∧
      writes_of e = [(t, b)] :=
  read_on_empty_buffer s ec t b hok hissued hempty

theorem C1_echo_is_identity_witness :
    ∃ s1 e, (Session.exec (Session.started 4) [Completion.handshake error_code.success]).1.complete
        (Completion.read error_code.success false []) = some (s1, e) ∧
      e.filter Effect.is_async = [Effect.ws_async_write false []] ∧
      writes_of e = [(false, [])] :=
  C1_echo_is_identity _ error_code.success false [] (by decide) (by decide) (by decide)

/-- C2: on a session whose handshake succeeds, reading the messages `m1..mN`
one after the other with every write succeeding issues exactly the writes
`m1..mN`, in that order: as many writes as messages, none lost, none repeated. -/
theorem C2_fifo_echo (socket : Socket) (ms : List (Bool × List Byte)) :
    writes_of (Session.exec (Session.started socket) (echo_events ms)).2 = ms ∧
      (writes_of (Session.exec (Session.started socket) (echo_events ms)).2).length =
        ms.length := by
  have h : writes_of (Session.exec (Session.started socket) (echo_events ms)).2 = ms := by
    have h0 : (Session.started socket).complete (Completion.handshake error_code.success) =
        some ((⟨socket, [], true, true, [OpKind.read]⟩ : Session),
          [Effect.cout "WebSocket connection accepted", Effect.ws_async_read]) := by
      simp [Session.complete, Session.started, Session.run, Session.new, Completion.kind,
        Session.on_accept, Session.do_read, error_code.failed, error_code.success]
    simp only [echo_events, Session.exec, h0, writes_of_append]
    simp [writes_of, exec_rounds ms ⟨socket, [], true, true, [OpKind.read]⟩ rfl rfl]
  exact ⟨h, by rw [h]⟩

/-- A completion that terminates the session leaves nothing outstanding and
issues no operation, whatever the state it is delivered in with that single
operation outstanding. -/
theorem complete_terminates (s : Session) (c : Completion) (s1 : Session) (e : List Effect)
    (hp : s.pending = [c.kind]) (ht : c.terminates = true)
    (hc : s.complete c = some (s1, e)) :
    s1.pending = [] ∧ e.filter Effect.is_async = [] := by
  rw [complete_of_singleton s c hp] at hc
  cases c with
  | handshake ec =>
    simp only [Completion.terminates] at ht
    simp only [Session.on_accept, ht, if_true, Option.some.injEq] at hc
    cases hc
    simp [Effect.is_async]
  | read ec t data =>
    simp only [Completion.terminates, Bool.or_eq_true] at ht
    simp only [Session.on_read, Option.some.injEq] at hc
    split at hc
    · cases hc; simp [Effect.is_async]
    · rename_i hncl
      have hf : ec.failed = true := by
        rcases ht with h | h
        · exact absurd h hncl
        · exact h
      simp only [hf, if_true] at hc
      cases hc
      simp [Effect.is_async]
  | write ec n =>
    simp only [Completion.terminates] at ht
    simp only [Session.on_write, ht, if_true, Option.some.injEq] at hc
    cases hc
    simp [Effect.is_async]

/-- What a handler issues, by the kind of completion it handles: a write only
from a read, a read only from the handshake or a write, and never more than
one operation. -/
theorem complete_issues (s : Session) (c : Completion) (s1 : Session) (e : List Effect)
    (hc : s.complete c = some (s1, e)) :
    ((∃ x ∈ e, x.is_write = true) → c.kind = OpKind.read) ∧
    ((∃ x ∈ e, x.is_read = true) → c.kind = OpKind.handshake ∨ c.kind = OpKind.write) ∧
    (e.filter Effect.is_async).length ≤ 1 := by
  have hmem : c.kind ∈ s.pending := by
    by_contra hn
    simp [Session.complete, hn] at hc
  simp only [Session.complete, hmem, if_true] at hc
  cases c with
  | handshake ec =>
    simp only [Session.on_accept, Session.do_read, Option.some.injEq] at hc
    split at hc <;> cases hc <;>
      simp [Completion.kind, Effect.is_async, Effect.is_write, Effect.is_read]
  | read ec t data =>
    simp only [Session.on_read, Option.some.injEq] at hc
    split at hc
    · cases hc; simp [Completion.kind, Effect.is_async, Effect.is_write, Effect.is_read]
    · split at hc <;> cases hc <;>
        simp [Completion.kind, Effect.is_async, Effect.is_write, Effect.is_read]
  | write ec n =>
    simp only [Session.on_write, Session.do_read, Option.some.injEq] at hc
    split at hc <;> cases hc <;>
      simp [Completion.kind, Effect.is_async, Effect.is_write, Effect.is_read]

/-- C8: in every state a session reaches from `run`, a completion that
terminates it (failed handshake, clean close, any read error, failed write)
issues no operation and leaves none outstanding; from then on no completion is
delivered and no effect, in particular no read and no write, is produced by any
sequence of events. -/
theorem C8_terminated_session_is_silent (socket : Socket) (cs : List Completion)
    (c : Completion) (s1 : Session) (e : List Effect)
    (ht : c.terminates = true)
    (hc : (Session.exec (Session.started socket) cs).1.complete c = some (s1, e)) :
    e.filter Effect.is_async = [] ∧ s1.pending = [] ∧
      ∀ later : List Completion,
        (∀ c1 ∈ later, s1.complete c1 = none) ∧ s1.exec later = (s1, []) := by
  have hinv := inv_exec cs (Session.started socket) (inv_started socket)
  have hmem : c.kind ∈ (Session.exec (Session.started socket) cs).1.pending := by
    by_contra hn
    simp [Session.complete, hn] at hc
  have hp := pending_eq_singleton _ c.kind hinv.1 hmem
  obtain ⟨h1, h2⟩ := complete_terminates _ c s1 e hp ht hc
  exact ⟨h2, h1, fun later =>
    ⟨fun c1 _ => complete_eq_none_of_pending_nil s1 h1 c1, exec_of_pending_nil s1 h1 later⟩⟩

theorem C8_terminated_session_is_silent_witness :
    [Effect.cerr "Write error: Broken pipe"].filter Effect.is_async = [] ∧
      (⟨3, [7], false, false, []⟩ : Session).pending = [] ∧
      ∀ later : List Completion,
        (∀ c1 ∈ later, (⟨3, [7], false, false, []⟩ : Session).complete c1 = none) ∧
          (⟨3, [7], false, false, []⟩ : Session).exec later = (⟨3, [7], false, false, []⟩, []) :=
  C8_terminated_session_is_silent 3
    [Completion.handshake error_code.success, Completion.read error_code.success false [7]]
    (Completion.write ⟨32, "system", "Broken pipe"⟩ 0)
    ⟨3, [7], false, false, []⟩ [Effect.cerr "Write error: Broken pipe"]
    (by decide) (by decide)

/-- C9: in every state a session reaches from `run` at most one operation is
outstanding, so a read and a write are never outstanding together; and the
handler of any completion delivered there issues at most one operation, a
write only when it handles a read, a read only when it handles the handshake
or a write. -/
theorem C9_one_operation_outstanding (socket : Socket) (cs : List Completion) :
    (Session.exec (Session.started socket) cs).1.pending.length ≤ 1 ∧
    ¬ (OpKind.read ∈ (Session.exec (Session.started socket) cs).1.pending ∧
        OpKind.write ∈ (Session.exec (Session.started socket) cs).1.pending) ∧
    ∀ (c : Completion) (s1 : Session) (e : List Effect),
      (Session.exec (Session.started socket) cs).1.complete c = some (s1, e) →
        ((∃ x ∈ e, x.is_write = true) → c.kind = OpKind.read) ∧
        ((∃ x ∈ e, x.is_read = true) → c.kind = OpKind.handshake ∨ c.kind = OpKind.write) ∧
        (e.filter Effect.is_async).length ≤ 1 := by
  have hinv := inv_exec cs (Session.started socket) (inv_started socket)
  refine ⟨hinv.1, ?_, fun c s1 e hc => complete_issues _ c s1 e hc⟩
  rintro ⟨hr, hw⟩
  have h1 := pending_eq_singleton _ _ hinv.1 hr
  rw [h1] at hw
  simp at hw

/-- C10: in every state a session reaches from `run` the buffer is empty while
a read is outstanding; `on_write` without error leaves the buffer empty and
issues the next read; and a message read successfully in a reachable state is
echoed with exactly its own bytes, whatever was read and echoed before. -/
theorem C10_buffer_empty_at_read (socket : Socket) (cs : List Completion) :
    (OpKind.read ∈ (Session.exec (Session.started socket) cs).1.pending →
      (Session.exec (Session.started socket) cs).1.buffer_ = []) ∧
    (∀ (s : Session) (ec : error_code) (n : Nat), ec.failed = false →
      (s.on_write ec n).1.buffer_ = [] ∧ (s.on_write ec n).2 = [Effect.ws_async_read]) ∧
    (∀ (ec : error_code) (t : Bool) (d : List Byte) (s1 : Session) (e : List Effect),
      ec.failed = false →
      (Session.exec (Session.started socket) cs).1.complete (Completion.read ec t d) =
        some (s1, e) →
      writes_of e = [(t, d)]) := by
  have hinv := inv_exec cs (Session.started socket) (inv_started socket)
  refine ⟨fun h => hinv.2 (Or.inr h), ?_, ?_⟩
  · intro s ec n hok
    simp [Session.on_write, hok, Session.do_read, Session.buffer_consume, Session.buffer_size]
  · intro ec t d s1 e hok hc
    have hmem : OpKind.read ∈ (Session.exec (Session.started socket) cs).1.pending := by
      by_contra hn
      simp [Session.complete, hn, Completion.kind] at hc
    obtain ⟨s2, e2, h2, _, hw⟩ :=
      read_on_empty_buffer (Session.exec (Session.started socket) cs).1 ec t d hok hmem (hinv.2 (Or.inr hmem))
    rw [h2] at hc
    cases hc
    exact hw

theorem C9_one_operation_outstanding_witness :
    ((∃ x ∈ [Effect.cout "Received: ", Effect.ws_async_write true []], x.is_write = true) →
        (Completion.read error_code.success true []).kind = OpKind.read) ∧
      ((∃ x ∈ [Effect.cout "Received: ", Effect.ws_async_write true []], x.is_read = true) →
        (Completion.read error_code.success true []).kind = OpKind.handshake ∨
          (Completion.read error_code.success true []).kind = OpKind.write) ∧
      ([Effect.cout "Received: ", Effect.ws_async_write true []].filter
        Effect.is_async).length ≤ 1 :=
  (C9_one_operation_outstanding 2 [Completion.handshake error_code.success]).2.2
    (Completion.read error_code.success true []) ⟨2, [], true, true, [OpKind.write]⟩
    [Effect.cout "Received: ", Effect.ws_async_write true []] (by decide)

theorem C10_buffer_empty_at_read_witness :
    (Session.exec (Session.started 1)
      [Completion.handshake error_code.success,
       Completion.read error_code.success true [104, 101, 108, 108, 111],
       Completion.write error_code.success 5]).1.buffer_ = [] ∧
    writes_of [Effect.cout "Received: hi", Effect.ws_async_write true [104, 105]] =
      [(true, [104, 105])] :=
  ⟨(C10_buffer_empty_at_read 1
      [Completion.handshake error_code.success,
       Completion.read error_code.success true [104, 101, 108, 108, 111],
       Completion.write error_code.success 5]).1 (by decide),
   (C10_buffer_empty_at_read 1
      [Completion.handshake error_code.success,
       Completion.read error_code.success true [104, 101, 108, 108, 111],
       Completion.write error_code.success 5]).2.2 error_code.success true [104, 105]
      ⟨1, [104, 105], true, true, [OpKind.write]⟩
      [Effect.cout "Received: hi", Effect.ws_async_write true [104, 105]]
      (by decide) (by decide)⟩

/-- C5 as stated fails: a handshake that fails with "Bad request" makes
`Session::on_accept` write a line on `std::cerr`, so the session does not close
without log output. -/
theorem C5_failed_handshake_is_logged :
    (Session.started 0).complete (Completion.handshake ⟨22, "system", "Bad request"⟩) =
        some (⟨0, [], true, true, []⟩, [Effect.cerr "Accept error: Bad request"]) ∧
      ¬ (∀ s1 e, (Session.started 0).complete
            (Completion.handshake ⟨22, "system", "Bad request"⟩) = some (s1, e) →
          e.filter (fun x => x.is_cerr || x.is_cout) = []) := by
  have h : (Session.started 0).complete (Completion.handshake ⟨22, "system", "Bad request"⟩) =
      some (⟨0, [], true, true, []⟩, [Effect.cerr "Accept error: Bad request"]) := by
    decide
  refine ⟨h, fun hall => ?_⟩
  have h2 := hall _ _ h
  simp [Effect.is_cerr] at h2

/-- C5, amended: when the handshake fails, `Session::on_accept` writes exactly
one line, `Accept error: ` followed by the message of the error, on
`std::cerr`, writes nothing on `std::cout`, leaves the session unchanged and
issues no read, no write and no other operation. -/
theorem C5_failed_handshake (s : Session) (ec : error_code) (hfail : ec.failed = true) :
    s.on_accept ec = (s, [Effect.cerr ("Accept error: " ++ ec.message)]) ∧
      (s.on_accept ec).2.filter Effect.is_cout = [] ∧
      (s.on_accept ec).2.filter Effect.is_async = [] := by
  simp [Session.on_accept, hfail, Effect.is_cout, Effect.is_async]

theorem C5_failed_handshake_witness :
    Session.on_accept ⟨0, [], true, true, []⟩ ⟨22, "system", "Bad request"⟩ =
        (⟨0, [], true, true, []⟩,
          [Effect.cerr ("Accept error: " ++ (⟨22, "system", "Bad request"⟩ : error_code).message)]) ∧
      (Session.on_accept ⟨0, [], true, true, []⟩ ⟨22, "system", "Bad request"⟩).2.filter
        Effect.is_cout = [] ∧
      (Session.on_accept ⟨0, [], true, true, []⟩ ⟨22, "system", "Bad request"⟩).2.filter
        Effect.is_async = [] :=
  C5_failed_handshake ⟨0, [], true, true, []⟩ ⟨22, "system", "Bad request"⟩ (by decide)

/-- C6: when a read completes with `websocket::error::closed`, `on_read` writes
one informational line on `std::cout` and nothing on `std::cerr`, leaves the
session unchanged and issues no operation; when it completes with any other
error, `on_read` writes the line `Read error: ` followed by the message on
`std::cerr`. -/
theorem C6_clean_close_not_logged_as_error (s : Session) (ec : error_code) (n : Nat) :
    (ec.is_closed = true →
      s.on_read ec n = (s, [Effect.cout "Connection closed by client"]) ∧
      (s.on_read ec n).2.filter Effect.is_cerr = [] ∧
      (s.on_read ec n).2.filter Effect.is_async = []) ∧
    (ec.is_closed = false → ec.failed = true →
      s.on_read ec n = (s, [Effect.cerr ("Read error: " ++ ec.message)]) ∧
      (s.on_read ec n).2.filter Effect.is_cerr ≠ []) := by
  constructor
  · intro hc
    simp [Session.on_read, hc, Effect.is_cerr, Effect.is_async]
  · intro hc hf
    simp [Session.on_read, hc, hf, Effect.is_cerr]

theorem C6_clean_close_not_logged_as_error_witness :
    (Session.on_read ⟨1, [], true, true, []⟩ ⟨1, "boost.beast.websocket", "closed"⟩ 0 =
        (⟨1, [], true, true, []⟩, [Effect.cout "Connection closed by client"]) ∧
      (Session.on_read ⟨1, [], true, true, []⟩
        ⟨1, "boost.beast.websocket", "closed"⟩ 0).2.filter Effect.is_cerr = [] ∧
      (Session.on_read ⟨1, [], true, true, []⟩
        ⟨1, "boost.beast.websocket", "closed"⟩ 0).2.filter Effect.is_async = []) ∧
    (Session.on_read ⟨1, [], true, true, []⟩ ⟨104, "system", "reset"⟩ 0 =
        (⟨1, [], true, true, []⟩,
          [Effect.cerr ("Read error: " ++ (⟨104, "system", "reset"⟩ : error_code).message)]) ∧
      (Session.on_read ⟨1, [], true, true, []⟩ ⟨104, "system", "reset"⟩ 0).2.filter
        Effect.is_cerr ≠ []) :=
  ⟨(C6_clean_close_not_logged_as_error ⟨1, [], true, true, []⟩
      ⟨1, "boost.beast.websocket", "closed"⟩ 0).1 (by decide),
   (C6_clean_close_not_logged_as_error ⟨1, [], true, true, []⟩
      ⟨104, "system", "reset"⟩ 0).2 (by decide) (by decide)⟩

/-! ## Lemmas on the listener and on `main` -/

theorem listener_new_pending (os : StartupResults) (ep : Endpoint) :
    (Listener.new os ep).1.pending = 0 := by
  simp only [Listener.new]
  split_ifs <;> rfl

theorem listener_on_accept_pending (l : Listener) (ec : error_code) (socket : Socket) :
    (l.on_accept ec socket).listener.pending = l.pending + 1 := by
  simp only [Listener.on_accept, Listener.do_accept]
  split_ifs <;> rfl

theorem listener_on_accept_listening (l : Listener) (ec : error_code) (socket : Socket) :
    (l.on_accept ec socket).listener.listening = l.listening ∧
      (l.on_accept ec socket).listener.bound = l.bound := by
  simp only [Listener.on_accept, Listener.do_accept]
  split_ifs <;> exact ⟨rfl, rfl⟩

theorem listener_exec_pending (cs : List (error_code × Socket)) (l : Listener)
    (h : l.pending = 1) : (l.exec cs).1.pending = 1 := by
  induction cs generalizing l with
  | nil => simpa [Listener.exec] using h
  | cons c cs ih =>
    obtain ⟨ec, socket⟩ := c
    simp only [Listener.exec, Listener.complete, h, one_ne_zero, if_false]
    apply ih
    rw [listener_on_accept_pending]

theorem listener_exec_listening (cs : List (error_code × Socket)) (l : Listener) :
    (l.exec cs).1.listening = l.listening ∧ (l.exec cs).1.bound = l.bound := by
  induction cs generalizing l with
  | nil => simp [Listener.exec]
  | cons c cs ih =>
    obtain ⟨ec, socket⟩ := c
    simp only [Listener.exec, Listener.complete]
    split_ifs
    · exact ih l
    · have h1 := ih (Listener.on_accept { l with pending := l.pending - 1 } ec socket).listener
      have h2 := listener_on_accept_listening { l with pending := l.pending - 1 } ec socket
      exact ⟨h1.1.trans h2.1, h1.2.trans h2.2⟩

/-- Without an exception `main` constructs the listener, runs it and stays in
`ioc.run()`: one accept is always outstanding. -/
theorem main_serving (argv : List String) (env : Environment) (h : env.ioc_exception = none) :
    main argv env =
      (Outcome.serving
          (Listener.exec (Listener.new env.startup (main_endpoint argv)).1.run.1 env.accepts).1
          (Listener.exec (Listener.new env.startup (main_endpoint argv)).1.run.1 env.accepts).2.1,
        banner ++ (Listener.new env.startup (main_endpoint argv)).2 ++
          [Effect.acceptor_async_accept] ++
          (Listener.exec (Listener.new env.startup (main_endpoint argv)).1.run.1
            env.accepts).2.2) := by
  have hp : (Listener.exec (Listener.new env.startup (main_endpoint argv)).1.run.1
      env.accepts).1.pending = 1 := by
    apply listener_exec_pending
    simp [Listener.run, Listener.do_accept, listener_new_pending]
  simp only [main, h, Listener.run, Listener.do_accept] at hp ⊢
  simp [hp]

theorem digitChar_digit : ∀ d, d < 10 →
    (Nat.digitChar d).isDigit = true ∧ (Nat.digitChar d).toNat = d + 48 ∧
      isspace (Nat.digitChar d) = false ∧ Nat.digitChar d ≠ '-' ∧ Nat.digitChar d ≠ '+' := by
  decide

/-- The digit loop of `atoi` reads back the digits `Nat.toDigitsCore` writes. -/
theorem atoi_digits_toDigitsCore (fuel : Nat) :
    ∀ (n : Nat) (acc : Int) (ds : List Char), n < fuel →
      ∃ k : Nat, atoi_digits acc (Nat.toDigitsCore 10 fuel n ds) =
        atoi_digits (acc * 10 ^ k + n) ds := by
  induction fuel with
  | zero => intro n acc ds h; omega
  | succ fuel ih =>
    intro n acc ds h
    have hd := digitChar_digit (n % 10) (Nat.mod_lt n (by decide))
    simp only [Nat.toDigitsCore]
    split_ifs with h0
    · refine ⟨1, ?_⟩
      simp only [atoi_digits, hd.1, if_true, hd.2.1, pow_one]
      congr 1
      push_cast
      omega
    · obtain ⟨k, hk⟩ := ih (n / 10) acc (Nat.digitChar (n % 10) :: ds) (by omega)
      refine ⟨k + 1, ?_⟩
      rw [hk]
      simp only [atoi_digits, hd.1, if_true, hd.2.1]
      congr 1
      push_cast
      rw [pow_succ]
      have : (n : Int) = (n / 10 : Nat) * 10 + (n % 10 : Nat) := by omega
      push_cast at this
      linarith

/-- The text `Nat.toDigitsCore` writes starts with a digit. -/
theorem toDigitsCore_head (fuel : Nat) :
    ∀ (n : Nat) (ds : List Char), n < fuel →
      ∃ d tl, d < 10 ∧ Nat.toDigitsCore 10 fuel n ds = Nat.digitChar d :: tl := by
  induction fuel with
  | zero => intro n ds h; omega
  | succ fuel ih =>
    intro n ds h
    simp only [Nat.toDigitsCore]
    split_ifs with h0
    · exact ⟨n % 10, ds, Nat.mod_lt n (by decide), rfl⟩
    · exact ih (n / 10) _ (by omega)

/-- The function `atoi` reads the decimal representation of a natural number
back to that number. -/
theorem atoi_repr (n : Nat) : atoi (toString n).data = n := by
  have hs : (toString n).data = Nat.toDigitsCore 10 (n + 1) n [] := rfl
  obtain ⟨d, tl, hd, htl⟩ := toDigitsCore_head (n + 1) n [] (by omega)
  obtain ⟨k, hk⟩ := atoi_digits_toDigitsCore (n + 1) n 0 [] (by omega)
  have hc := digitChar_digit d hd
  rw [hs]
  simp only [atoi]
  rw [htl] at hk ⊢
  simp only [List.dropWhile, hc.2.2.1, hc.2.2.2.1, hc.2.2.2.2, if_false]
  rw [hk]
  simp [atoi_digits]

/-! ## The claims on the listener and on `main` -/

/-- C3, evaluated on the code: when `bind` fails because the address is in
use (and nothing throws), `main` logs the bind error, calls `run()` all the
same, which issues an accept on the acceptor that is not listening, and stays
in `ioc.run()`: it does not return `EXIT_FAILURE`, whatever accept completions
follow. -/
theorem C3_bind_failure_enters_accept_loop (argv : List String)
    (accepts : List (error_code × Socket)) :
    (∃ l ss,
      (main argv ⟨none, ⟨error_code.success, error_code.success,
          ⟨98, "system", "Address already in use"⟩, error_code.success⟩, accepts⟩).1 =
        Outcome.serving l ss ∧ l.listening = false ∧ l.bound = none ∧ l.pending = 1) ∧
    (main argv ⟨none, ⟨error_code.success, error_code.success,
        ⟨98, "system", "Address already in use"⟩, error_code.success⟩, accepts⟩).1 ≠
      Outcome.returned EXIT_FAILURE ∧
    (banner ++ [Effect.cerr "Bind error: Address already in use",
        Effect.acceptor_async_accept]).IsPrefix
      (main argv ⟨none, ⟨error_code.success, error_code.success,
        ⟨98, "system", "Address already in use"⟩, error_code.success⟩, accepts⟩).2 := by
  have hm := main_serving argv ⟨none, ⟨error_code.success, error_code.success,
    ⟨98, "system", "Address already in use"⟩, error_code.success⟩, accepts⟩ rfl
  have hnew : Listener.new ⟨error_code.success, error_code.success,
      ⟨98, "system", "Address already in use"⟩, error_code.success⟩ (main_endpoint argv) =
      (⟨true, true, none, false, 0⟩, [Effect.cerr "Bind error: Address already in use"]) := by
    simp [Listener.new, error_code.failed, error_code.success]
  rw [hm]
  refine ⟨⟨_, _, rfl, ?_, ?_, ?_⟩, by simp, ?_⟩
  · rw [(listener_exec_listening _ _).1, hnew]; rfl
  · rw [(listener_exec_listening _ _).2, hnew]; rfl
  · apply listener_exec_pending
    rw [hnew]; rfl
  · simp only [hnew]
    exact ⟨(Listener.exec (Listener.run ⟨true, true, none, false, 0⟩).1 accepts).2.2, by simp⟩

/-- C4: every call of `Listener::on_accept`, with an error or with a socket,
issues exactly one new accept, as its last action, so that one more accept is
outstanding; it creates and starts a session exactly when the completion
carries no error; with an error it logs the error on `std::cerr`; and after any
sequence of accept completions, failed or not, a listener that was run has one
accept outstanding. -/
theorem C4_accept_loop_continues (l : Listener) (ec : error_code) (socket : Socket)
    (os : StartupResults) (ep : Endpoint) (cs : List (error_code × Socket)) :
    (l.on_accept ec socket).effects.count Effect.acceptor_async_accept = 1 ∧
    (l.on_accept ec socket).effects.getLast? = some Effect.acceptor_async_accept ∧
    (l.on_accept ec socket).listener.pending = l.pending + 1 ∧
    ((l.on_accept ec socket).session.isSome = true ↔ ec.failed = false) ∧
    (ec.failed = false →
      (l.on_accept ec socket).session = some (Session.started socket) ∧
      (l.on_accept ec socket).effects =
        [Effect.ws_async_accept, Effect.acceptor_async_accept]) ∧
    (ec.failed = true →
      (l.on_accept ec socket).effects =
        [Effect.cerr ("Accept error: " ++ ec.message), Effect.acceptor_async_accept]) ∧
    (Listener.exec (Listener.new os ep).1.run.1 cs).1.pending = 1 := by
  refine ⟨?_, ?_, listener_on_accept_pending l ec socket, ?_, ?_, ?_, ?_⟩
  · cases h : ec.failed <;>
      simp [Listener.on_accept, Listener.do_accept, Session.run, h]
  · cases h : ec.failed <;>
      simp [Listener.on_accept, Listener.do_accept, Session.run, h]
  · cases h : ec.failed <;>
      simp [Listener.on_accept, Listener.do_accept, Session.run, h]
  · intro h
    simp [Listener.on_accept, Listener.do_accept, Session.run, Session.started, h]
  · intro h
    simp [Listener.on_accept, Listener.do_accept, h]
  · apply listener_exec_pending
    simp [Listener.run, Listener.do_accept, listener_new_pending]

theorem C4_accept_loop_continues_witness :
    (Listener.on_accept ⟨true, true, none, true, 0⟩
        ⟨24, "system", "Too many open files"⟩ 0).effects =
      [Effect.cerr ("Accept error: " ++
          (⟨24, "system", "Too many open files"⟩ : error_code).message),
        Effect.acceptor_async_accept] ∧
    (Listener.on_accept ⟨true, true, none, true, 0⟩ error_code.success 6).session =
        some (Session.started 6) ∧
      (Listener.on_accept ⟨true, true, none, true, 0⟩ error_code.success 6).effects =
        [Effect.ws_async_accept, Effect.acceptor_async_accept] :=
  ⟨(C4_accept_loop_continues ⟨true, true, none, true, 0⟩
      ⟨24, "system", "Too many open files"⟩ 0
      ⟨error_code.success, error_code.success, error_code.success, error_code.success⟩
      ⟨"0.0.0.0", 9001⟩ []).2.2.2.2.2.1 (by decide),
   (C4_accept_loop_continues ⟨true, true, none, true, 0⟩ error_code.success 6
      ⟨error_code.success, error_code.success, error_code.success, error_code.success⟩
      ⟨"0.0.0.0", 9001⟩ []).2.2.2.2.1 (by decide)⟩

/-- C7: with no argument (`argc < 2`) `main` listens on `0.0.0.0:9001`; with a
first argument that is the decimal representation of `n`, `0 <= n <= 65535`,
it listens on `0.0.0.0:n`; and when the acceptor calls succeed the acceptor is
bound to that endpoint and listening. -/
theorem C7_listening_endpoint :
    (∀ argv : List String, argv.length < 2 → main_endpoint argv = ⟨"0.0.0.0", 9001⟩) ∧
    (∀ (prog : String) (n : Nat) (more : List String), n ≤ 65535 →
      main_endpoint (prog :: toString n :: more) = ⟨"0.0.0.0", n⟩) ∧
    (∀ (argv : List String) (accepts : List (error_code × Socket)),
      ∃ l ss,
        (main argv ⟨none, ⟨error_code.success, error_code.success, error_code.success,
          error_code.success⟩, accepts⟩).1 = Outcome.serving l ss ∧
        l.bound = some (main_endpoint argv) ∧ l.listening = true) := by
  refine ⟨?_, ?_, ?_⟩
  · intro argv h
    simp [main_endpoint, main_port, Nat.not_le.mpr h]
  · intro prog n more h
    simp only [main_endpoint, main_port, List.length_cons, List.getD_cons_succ,
      List.getD_cons_zero, atoi_repr, to_unsigned_short]
    have h2 : 2 ≤ more.length + 1 + 1 := by omega
    simp only [h2, if_true, Endpoint.mk.injEq, true_and]
    omega
  · intro argv accepts
    have hm := main_serving argv ⟨none, ⟨error_code.success, error_code.success,
      error_code.success, error_code.success⟩, accepts⟩ rfl
    have hnew : (Listener.new ⟨error_code.success, error_code.success, error_code.success,
        error_code.success⟩ (main_endpoint argv)).1 =
        ⟨true, true, some (main_endpoint argv), true, 0⟩ := by
      simp [Listener.new, error_code.failed, error_code.success]
    rw [hm]
    refine ⟨_, _, rfl, ?_, ?_⟩
    · rw [(listener_exec_listening _ _).2, hnew]; rfl
    · rw [(listener_exec_listening _ _).1, hnew]; rfl

theorem C7_listening_endpoint_witness :
    main_endpoint ["beast_server"] = ⟨"0.0.0.0", 9001⟩ ∧
      main_endpoint ["beast_server", toString 8080] = ⟨"0.0.0.0", 8080⟩ :=
  ⟨C7_listening_endpoint.1 ["beast_server"] (by decide),
   C7_listening_endpoint.2.1 "beast_server" 8080 [] (by decide)⟩

end BeastServer
